import Mathlib

/-!
Verification of the core time-series pipeline of `run.py` (and the identical
copy in `unused_code.py`): the inflation-factor curve
(`precompute_inflation_factors`), inflation adjustment
(`adjust_for_inflation`) and the pairwise-correlation engine
(`calculate_pairwise_correlation`).

Modelling conventions:
* Python floats are modelled as elements of a field `K` (`ℝ` for the
  inflation arithmetic, whose source uses a fractional power; `ℚ` for
  concrete evaluations that never reach the transcendental operations).
  The two transcendental float operations of the source, `x ** (1/days)`
  and the square root inside Pearson correlation, are passed in as
  parameters `pow1n` and `sqrtK`; `realPow` instantiates `pow1n` with the
  real power actually used by the source.
* A calendar date is a pair (year, day-of-year); `datetime(year, 1, 1) +
  (day - 1)` in the source always stays inside `year` because the day loop
  runs exactly `days_in_year year` times, so this pair is a faithful date
  representation, ordered lexicographically.
* Python dicts are association lists; writes prepend, reads take the first
  hit, which gives the last-write-wins semantics of dict assignment.
* A `pandas` float cell holding `NaN` (which is also what assigning `None`
  into a float DataFrame stores) is modelled as `none : Option K`;
  `DataFrame.corr` yields `NaN` exactly when a column is empty or has zero
  variance, which `df_corr` models by returning `none` in those cases.
* Uncaught Python exceptions are `Except.error` values: `PyErr.keyError`
  for the `date_sets[label]` dict lookups in
  `calculate_pairwise_correlation`, `PyErr.missingYearRate` for the
  `ValueError` raised by `precompute_inflation_factors` on a year missing
  from the inflation table.
* `adjust_for_inflation` mutates each record it adjusts in place
  (`record["data"]["Inflation Adjusted Close"] = ...`) and the returned
  list shares those record objects; the embedding returns a pair
  (state of the input list after the call, returned list).
-/

/-- A calendar date: year and 1-based day of year (run.py builds dates as
`datetime(year, 1, 1) + Timedelta(days=day-1)` with `day ≤ days_in_year year`,
so the day offset never leaves `year`). -/
structure Date where
  year : Nat
  doy : Nat
deriving DecidableEq, Repr

/-- Lexicographic order on dates, the order `datetime` comparison gives. -/
def Date.le (a b : Date) : Prop :=
  a.year < b.year ∨ (a.year = b.year ∧ a.doy ≤ b.doy)

instance (a b : Date) : Decidable (Date.le a b) :=
  inferInstanceAs (Decidable (a.year < b.year ∨ (a.year = b.year ∧ a.doy ≤ b.doy)))

/-- Uncaught Python exceptions of the embedded functions: `keyError l` for a
missing dict key (run.py line 243), `missingYearRate y` for the `ValueError`
raised at run.py line 153. -/
inductive PyErr where
  | keyError : String → PyErr
  | missingYearRate : Nat → PyErr
deriving DecidableEq

/-- run.py line 9: `END_DATE = 2024`. -/
def END_DATE : Nat := 2024

/-- run.py lines 136-137: `366 if (year % 4 == 0 and (year % 100 != 0 or
year % 400 == 0)) else 365`. -/
def days_in_year (year : Nat) : Nat :=
  if year % 4 = 0 ∧ (year % 100 ≠ 0 ∨ year % 400 = 0) then 366 else 365

/-- Reading the inflation rate of `year` from the table (run.py line 142;
the table is the year-indexed DataFrame column `Inflation Rate`). -/
def lookupRate {K : Type*} (inflation_data : List (Nat × K)) (year : Nat) :
    Option K :=
  (inflation_data.find? fun p => decide (p.1 = year)).map Prod.snd

/-- `inflation_data.index.max().year` (run.py line 140). -/
def maxTableYear {K : Type*} (inflation_data : List (Nat × K)) : Nat :=
  (inflation_data.map Prod.fst).foldl Nat.max 0

/-- The inner day loop of `precompute_inflation_factors` (run.py lines
147-151): for each day of the year, if the date is on or after the start
date, multiply the running cumulative factor by the year's daily factor `f`
and record it.  The accumulator is (cumulative factor, recorded entries). -/
def day_loop {K : Type*} [Field K] (year : Nat) (f : K) (start_date : Date) :
    List Nat → K × List (Date × K) → K × List (Date × K)
  | [], acc => acc
  | day :: rest, acc =>
    if Date.le start_date ⟨year, day⟩ then
      day_loop year f start_date rest
        (acc.1 * f, acc.2 ++ [(⟨year, day⟩, acc.1 * f)])
    else
      day_loop year f start_date rest acc

/-- The year loop of `precompute_inflation_factors` (run.py lines 140-153):
look up the year's rate (raising `ValueError` when absent), form the daily
factor `(1 + rate/100) ** (1/days)` and run the day loop. -/
def year_loop {K : Type*} [Field K] [DecidableEq K] (pow1n : K → Nat → K)
    (inflation_data : List (Nat × K)) (start_date : Date) :
    List Nat → K × List (Date × K) → Except PyErr (K × List (Date × K))
  | [], acc => .ok acc
  | year :: rest, acc =>
    match lookupRate inflation_data year with
    | none => .error (.missingYearRate year)
    | some rate =>
      year_loop pow1n inflation_data start_date rest
        (day_loop year (pow1n (1 + rate / 100) (days_in_year year)) start_date
          (List.range' 1 (days_in_year year)) acc)

/-- run.py lines 118-155, `precompute_inflation_factors`: iterate the years
from `start_date.year` through `min(END_DATE, inflation_data.index.max().year)`
and return the date → cumulative-factor dict.  `pow1n x n` stands for the
float power `x ** (1/n)`. -/
def precompute_inflation_factors {K : Type*} [Field K] [DecidableEq K]
    (pow1n : K → Nat → K) (inflation_data : List (Nat × K))
    (start_date : Date) : Except PyErr (List (Date × K)) :=
  (year_loop pow1n inflation_data start_date
      (List.range' start_date.year
        (min END_DATE (maxTableYear inflation_data) + 1 - start_date.year))
      (1, [])).map Prod.snd

/-- The float power `x ** (1/n)` used at run.py line 144, as a real power. -/
noncomputable def realPow (x : ℝ) (n : Nat) : ℝ := x ^ (1 / (n : ℝ))

/-- The daily factor a fixed-365-divisor computation would use: the spec's
"computation that always divides by 365", for comparison against the
leap-aware factor the code computes. -/
noncomputable def fixed365_daily_factor (r : ℝ) : ℝ := realPow (1 + r / 100) 365

/-- Proof-side description of the entries `day_loop` records for a run of
consecutive recorded days: the cumulative factor is multiplied once per day. -/
def scan_entries {K : Type*} [Field K] (year : Nat) (f : K) :
    K → List Nat → List (Date × K)
  | _, [] => []
  | cum, day :: rest => (⟨year, day⟩, cum * f) :: scan_entries year f (cum * f) rest

/-- One history record as used by the pipeline: the `timestamp` date, the
`Close` price, and the optional `Inflation Adjusted Close` field that
`adjust_for_inflation` writes into the record's data dict. -/
structure Record (K : Type*) where
  date : Date
  close : K
  adjClose : Option K
deriving DecidableEq

/-- The price the correlation engine reads from a record (run.py line 228):
`record["data"].get("Inflation Adjusted Close", record["data"]["Close"])`. -/
def effPrice {K : Type*} (r : Record K) : K := r.adjClose.getD r.close

/-- Order-preserving removal of duplicates (Python `set` membership
semantics for the collected dates). -/
def distinctsAux {α : Type*} [DecidableEq α] : List α → List α → List α
  | [], acc => acc.reverse
  | x :: rest, acc =>
    if x ∈ acc then distinctsAux rest acc else distinctsAux rest (x :: acc)

/-- The set of dates of a history, run.py line 222:
`{datetime.fromisoformat(record["timestamp"]).date() for record in history}`. -/
def distincts {α : Type*} [DecidableEq α] (l : List α) : List α := distinctsAux l []

/-- `datesOf history` is the date set stored into `date_sets[label]`. -/
def datesOf {K : Type*} (history : List (Record K)) : List Date :=
  distincts (history.map fun r => r.date)

/-- The per-label price dict (run.py lines 226-231): a date → effective price
dict built record by record; prepending models dict assignment, so a read
(`List.find?`) sees the last write. -/
def pricesOf {K : Type*} (history : List (Record K)) : List (Date × K) :=
  history.foldl (fun acc r => (r.date, effPrice r) :: acc) []

/-- Dict read keyed by date. -/
def lookupDate {K : Type*} (dict : List (Date × K)) (d : Date) : Option K :=
  (dict.find? fun p => decide (p.1 = d)).map Prod.snd

/-- Dict read keyed by label/ticker. -/
def lookupStr {α : Type*} (dict : List (String × α)) (s : String) : Option α :=
  (dict.find? fun p => decide (p.1 = s)).map Prod.snd

/-- `min(record date for record in history)` (run.py line 214); the source
only evaluates it on a nonempty history, so the `[]` case is arbitrary. -/
def minDateOf {K : Type*} : List (Record K) → Date
  | [] => ⟨0, 0⟩
  | r :: rest =>
    rest.foldl (fun acc s => if Date.le s.date acc then s.date else acc) r.date

/-- The body of the record loop of `adjust_for_inflation` (run.py lines
173-188).  Returns (the record after the call, the record appended to the
result, if any): when the date is in the factor dict the record is mutated
in place with the adjusted close and appended; otherwise the raised
`ValueError` is caught by the surrounding `except`, which prints and
`continue`s, so the record is left unmodified and dropped from the result. -/
def adjustStep {K : Type*} [Field K] (inflation_factors : List (Date × K))
    (r : Record K) : Record K × Option (Record K) :=
  match lookupDate inflation_factors r.date with
  | some f =>
    let r2 : Record K := ⟨r.date, r.close, some (r.close / f)⟩
    (r2, some r2)
  | none => (r, none)

/-- run.py lines 157-190, `adjust_for_inflation`.  The first component is
the state of the caller's record list after the call (the records are
mutated in place), the second is the returned `adjusted_data` list.  An
empty (falsy) factor dict returns the input unadjusted (line 168-169). -/
def adjust_for_inflation {K : Type*} [Field K] (asset_data : List (Record K))
    (inflation_factors : List (Date × K)) :
    List (Record K) × List (Record K) :=
  if inflation_factors.isEmpty then (asset_data, asset_data)
  else
    (asset_data.map fun r => (adjustStep inflation_factors r).1,
     asset_data.filterMap fun r => (adjustStep inflation_factors r).2)

/-- The effective price a series holds at date `d`: the first record with
that date, read through `effPrice`; `none` when the series has no record at
`d`. -/
def effLookup {K : Type*} (series : List (Record K)) (d : Date) : Option K :=
  (series.find? fun r => decide (r.date = d)).map effPrice

/-- Insertion step for date sorting. -/
def insertDate (d : Date) : List Date → List Date
  | [] => [d]
  | e :: rest => if Date.le d e then d :: e :: rest else e :: insertDate d rest

/-- `sorted(common_dates)` (run.py line 253). -/
def sortDates : List Date → List Date
  | [] => []
  | d :: rest => insertDate d (sortDates rest)

/-- `df.resample(frequency).mean()` restricted to the buckets that contain
at least one observation (run.py line 256): group the dates by the bucket
map `freq`, average the prices of each bucket, one output point per bucket
in order of first appearance.  Buckets with no observation hold `NaN` in
both columns simultaneously (the two columns share the date index) and are
discarded pairwise by `DataFrame.corr`, so they are omitted here. -/
def resample_mean {K : Type*} [Field K] {β : Type*} [DecidableEq β]
    (freq : Date → β) (pts : List (Date × K)) : List K :=
  (distincts (pts.map fun p => freq p.1)).map fun b =>
    let vs := (pts.filter fun p => decide (freq p.1 = b)).map Prod.snd
    vs.sum / (vs.length : K)

/-- Sum of squared deviations from the mean (the variance numerator the
Pearson denominator is built from). -/
def sqDevSum {K : Type*} [Field K] (xs : List K) : K :=
  (xs.map fun x => (x - xs.sum / (xs.length : K)) ^ 2).sum

/-- `df.corr().iloc[0, 1]` (run.py line 259): the Pearson coefficient of the
two aligned columns.  `pandas` produces the float `NaN` — modelled `none` —
exactly when the columns are empty or one of them has zero variance (the
0/0 of a zero standard deviation); otherwise the usual covariance over the
product of the standard deviations, `sqrtK` standing for the float square
root. -/
def df_corr {K : Type*} [Field K] [DecidableEq K] (sqrtK : K → K)
    (xs ys : List K) : Option K :=
  if xs.isEmpty then none
  else if sqDevSum xs = 0 ∨ sqDevSum ys = 0 then none
  else
    some ((((xs.zip ys).map fun p =>
        (p.1 - xs.sum / (xs.length : K)) * (p.2 - ys.sum / (ys.length : K))).sum) /
      (sqrtK (sqDevSum xs) * sqrtK (sqDevSum ys)))

/-- `prices1 = {date: closing_prices[label][date] for date in common_dates}`
aligned over the sorted common dates (run.py lines 246-253); every common
date is a key of the price dict, so the `Option.map` never drops a date. -/
def alignedPts {K : Type*} (prices : List (Date × K)) (sc : List Date) :
    List (Date × K) :=
  sc.filterMap fun d => (lookupDate prices d).map fun v => (d, v)

/-- `date_sets[label1].intersection(date_sets[label2])` as computed from the
two histories. -/
def interDates {K : Type*} (h1 h2 : List (Record K)) : List Date :=
  (datesOf h1).filter fun d => decide (d ∈ datesOf h2)

/-- The non-diagonal, nonempty-intersection cell computation (run.py lines
245-260): align both price dicts to the sorted common dates, resample both
to the frequency and take the Pearson coefficient. -/
def pairCell {K : Type*} [Field K] [DecidableEq K] {β : Type*} [DecidableEq β]
    (sqrtK : K → K) (freq : Date → β) (prices1 prices2 : List (Date × K))
    (commonDates : List Date) : Option K :=
  let sc := sortDates commonDates
  df_corr sqrtK (resample_mean freq (alignedPts prices1 sc))
    (resample_mean freq (alignedPts prices2 sc))

/-- One cell of the matrix loop (run.py lines 239-262).  The diagonal is set
to `1.0` before any data access; otherwise the dict reads `date_sets[l]`
and `closing_prices[l]` raise `KeyError` for a label that was never stored
(fetch failure), an empty intersection stores the undefined sentinel
(`None`, `NaN` in the float DataFrame), and a nonempty intersection stores
the resampled Pearson coefficient. -/
def cellE {K : Type*} [Field K] [DecidableEq K] {β : Type*} [DecidableEq β]
    (sqrtK : K → K) (freq : Date → β) (date_sets : List (String × List Date))
    (closing_prices : List (String × List (Date × K))) (l1 l2 : String) :
    Except PyErr (Option K) :=
  if l1 = l2 then .ok (some 1)
  else
    match lookupStr date_sets l1 with
    | none => .error (.keyError l1)
    | some s1 =>
      match lookupStr date_sets l2 with
      | none => .error (.keyError l2)
      | some s2 =>
        let common := s1.filter fun d => decide (d ∈ s2)
        if common.isEmpty then .ok none
        else
          match lookupStr closing_prices l1 with
          | none => .error (.keyError l1)
          | some p1 =>
            match lookupStr closing_prices l2 with
            | none => .error (.keyError l2)
            | some p2 => .ok (pairCell sqrtK freq p1 p2 common)

/-- The inner `for label2 in labels` loop, collecting one row of cells and
propagating the first uncaught exception. -/
def rowCells {K : Type*} (f : String → String → Except PyErr (Option K))
    (a : String) : List String → Except PyErr (List ((String × String) × Option K))
  | [] => .ok []
  | b :: rest =>
    match f a b with
    | .error e => .error e
    | .ok v =>
      match rowCells f a rest with
      | .error e => .error e
      | .ok row => .ok (((a, b), v) :: row)

/-- The outer `for label1 in labels` loop over all ordered pairs. -/
def allCells {K : Type*} (f : String → String → Except PyErr (Option K)) :
    List String → List String → Except PyErr (List ((String × String) × Option K))
  | [], _ => .ok []
  | a :: rest, bs =>
    match rowCells f a bs with
    | .error e => .error e
    | .ok row =>
      match allCells f rest bs with
      | .error e => .error e
      | .ok cells => .ok (row ++ cells)

/-- The data-collection loop of `calculate_pairwise_correlation` (run.py
lines 210-231): for each ticker whose fetch yields a nonempty history,
optionally deflate it (precomputing the curve from its earliest date, whose
`ValueError` propagates uncaught), then store its date set and price dict.
The accumulator pair is (`date_sets`, `closing_prices`); prepending models
dict assignment. -/
def phase1 {K : Type*} [Field K] [DecidableEq K] (pow1n : K → Nat → K)
    (fetch : String → Option (List (Record K)))
    (inflation_data : Option (List (Nat × K))) :
    List (String × String) →
    List (String × List Date) × List (String × List (Date × K)) →
    Except PyErr (List (String × List Date) × List (String × List (Date × K)))
  | [], acc => .ok acc
  | (ticker, label) :: rest, acc =>
    match fetch ticker with
    | none => phase1 pow1n fetch inflation_data rest acc
    | some history =>
      if history.isEmpty then phase1 pow1n fetch inflation_data rest acc
      else
        match inflation_data with
        | none =>
          phase1 pow1n fetch inflation_data rest
            ((label, datesOf history) :: acc.1,
             (label, pricesOf history) :: acc.2)
        | some tbl =>
          match precompute_inflation_factors pow1n tbl (minDateOf history) with
          | .error e => .error e
          | .ok factors =>
            phase1 pow1n fetch inflation_data rest
              ((label, datesOf (adjust_for_inflation history factors).2) :: acc.1,
               (label, pricesOf (adjust_for_inflation history factors).2) :: acc.2)

/-- run.py lines 193-264, `calculate_pairwise_correlation`: collect the
per-label data, then fill the labels × labels matrix cell by cell.  The
label list is `list(ticker_label_map.values())`, taken from the full ticker
map — including tickers whose fetch failed. -/
def calculate_pairwise_correlation {K : Type*} [Field K] [DecidableEq K]
    {β : Type*} [DecidableEq β] (pow1n : K → Nat → K) (sqrtK : K → K)
    (ticker_label_map : List (String × String))
    (fetch : String → Option (List (Record K)))
    (inflation_data : Option (List (Nat × K))) (freq : Date → β) :
    Except PyErr (List ((String × String) × Option K)) :=
  match phase1 pow1n fetch inflation_data ticker_label_map ([], []) with
  | .error e => .error e
  | .ok st =>
    allCells (cellE sqrtK freq st.1 st.2)
      (ticker_label_map.map Prod.snd) (ticker_label_map.map Prod.snd)

/-- Reading the matrix cell at (row, column). -/
def findCell {K : Type*} (a b : String)
    (cells : List ((String × String) × Option K)) : Option (Option K) :=
  (cells.find? fun pr => decide (pr.1 = (a, b))).map Prod.snd

/-- C10: an empty inflation-factor mapping makes `adjust_for_inflation`
return the input series unchanged — the falsy-dict early return at run.py
lines 168-169 — with no adjusted price added to any record, no record
mutated, and no error raised (the function is total on this branch). -/
theorem empty_factors_bypass {K : Type*} [Field K] (series : List (Record K)) :
    (adjust_for_inflation series []).2 = series ∧
    (adjust_for_inflation series []).1 = series ∧
    ((adjust_for_inflation series []).2).map (fun r => r.adjClose) =
      series.map (fun r => r.adjClose) := by
  simp [adjust_for_inflation]

/-- C7 counterexample: `adjust_for_inflation` does mutate the caller's
records in place — after a call with a one-day factor dict covering the
record's date, the input list's record has gained the adjusted close, so
the input is no longer equal to what it was before the call. -/
theorem deflate_input_mutated :
    (adjust_for_inflation (K := ℚ) [⟨⟨2020, 1⟩, 100, none⟩]
        [(⟨2020, 1⟩, 2)]).1 ≠ [⟨⟨2020, 1⟩, 100, none⟩] := by
  decide

/-- C7 amended: the in-place mutation is confined to writing the
`Inflation Adjusted Close` field; every record of the input series keeps
its date and nominal closing price after the call, preserving the nominal
series for traceability. -/
theorem deflate_preserves_dates_and_closes {K : Type*} [Field K]
    (series : List (Record K)) (factors : List (Date × K)) :
    ((adjust_for_inflation series factors).1).map (fun r => (r.date, r.close)) =
      series.map (fun r => (r.date, r.close)) := by
  unfold adjust_for_inflation
  split
  · rfl
  · rw [List.map_map]
    apply List.map_congr_left
    intro r _
    cases h : lookupDate factors r.date <;> simp [adjustStep, h]

/-- C8 counterexample: a record whose date is absent from the curve is
neither passed through unchanged nor turned into a failure of the call —
it is silently dropped: with a curve covering only day 1, the input record
of day 2 has no image of any kind in the returned list. -/
theorem uncovered_record_dropped :
    ((⟨⟨2020, 2⟩, 50, none⟩ : Record ℚ) ∈
        ([⟨⟨2020, 1⟩, 100, none⟩, ⟨⟨2020, 2⟩, 50, none⟩] : List (Record ℚ))) ∧
    ∀ r ∈ (adjust_for_inflation (K := ℚ)
        [⟨⟨2020, 1⟩, 100, none⟩, ⟨⟨2020, 2⟩, 50, none⟩]
        [(⟨2020, 1⟩, 2)]).2, r.date ≠ ⟨2020, 2⟩ := by
  decide

/-- C8 amended: with a nonempty curve, the returned list consists exactly
of the records whose date is in the curve, each carrying the adjusted
close `price / curve[date]`; a record at a date outside the curve is
logged and omitted (the internally-caught `ValueError` at run.py lines
183-188), not passed through and not a failure of the call. -/
theorem deflate_membership {K : Type*} [Field K] (series : List (Record K))
    (factors : List (Date × K)) (hne : factors ≠ []) (r2 : Record K) :
    r2 ∈ (adjust_for_inflation series factors).2 ↔
      ∃ r ∈ series, ∃ f, lookupDate factors r.date = some f ∧
        r2 = ⟨r.date, r.close, some (r.close / f)⟩ := by
  have hb : factors.isEmpty = false := by
    cases factors
    · exact absurd rfl hne
    · rfl
  rw [adjust_for_inflation, hb]
  simp only [Bool.false_eq_true, if_false, List.mem_filterMap]
  constructor
  · rintro ⟨r, hr, hstep⟩
    cases h : lookupDate factors r.date with
    | none => rw [adjustStep, h] at hstep; exact absurd hstep (by simp)
    | some f =>
      rw [adjustStep, h] at hstep
      simp only [Option.some.injEq] at hstep
      exact ⟨r, hr, f, h, hstep.symm⟩
  · rintro ⟨r, hr, f, hf, rfl⟩
    exact ⟨r, hr, by rw [adjustStep, hf]⟩

/-- C8 amended, witness at a concrete input. -/
theorem deflate_membership_witness :
    (([(⟨2020, 1⟩, 2)] : List (Date × ℚ)) ≠ []) ∧
    ((⟨⟨2020, 1⟩, 100, some 50⟩ : Record ℚ) ∈
        (adjust_for_inflation (K := ℚ)
          [⟨⟨2020, 1⟩, 100, none⟩, ⟨⟨2020, 2⟩, 50, none⟩]
          [(⟨2020, 1⟩, 2)]).2 ↔
      ∃ r ∈ ([⟨⟨2020, 1⟩, 100, none⟩, ⟨⟨2020, 2⟩, 50, none⟩] : List (Record ℚ)),
        ∃ f, lookupDate [(⟨2020, 1⟩, 2)] r.date = some f ∧
          (⟨⟨2020, 1⟩, 100, some 50⟩ : Record ℚ) =
            ⟨r.date, r.close, some (r.close / f)⟩) :=
  ⟨by decide,
   deflate_membership [⟨⟨2020, 1⟩, 100, none⟩, ⟨⟨2020, 2⟩, 50, none⟩]
     [(⟨2020, 1⟩, 2)] (by decide) ⟨⟨2020, 1⟩, 100, some 50⟩⟩

/-- The fetch map of the C9 failing input: ticker `T1` has one day of data,
the fetch of ticker `T2` fails (`get_asset_stats` returns `None`). -/
def fetch9 : String → Option (List (Record ℚ)) :=
  fun t => if t = "T1" then some [⟨⟨2020, 1⟩, 100, none⟩] else none

/-- C9: evaluating `calculate_pairwise_correlation` at the failing input —
two requested tickers, the second of which fails to fetch — does not
complete with the failed instrument absent: the matrix label list is taken
from the full ticker map, so the off-diagonal cell looks up
`date_sets["B"]`, which was never stored, and the uncaught dict `KeyError`
aborts the whole computation. -/
theorem failed_fetch_keyerror :
    calculate_pairwise_correlation (fun (x : ℚ) (_ : Nat) => x) (fun x => x)
      [("T1", "A"), ("T2", "B")] fetch9 none (fun d => d) =
      .error (.keyError "B") := by
  rfl

/-- If some year of the iterated list has no rate in the table, the year
loop aborts with `missingYearRate` at its first such year. -/
theorem year_loop_error_of_missing {K : Type*} [Field K] [DecidableEq K]
    (pow1n : K → Nat → K) (tbl : List (Nat × K)) (sd : Date) :
    ∀ ys acc, (∃ y ∈ ys, lookupRate tbl y = none) →
      ∃ y2 ∈ ys, lookupRate tbl y2 = none ∧
        year_loop pow1n tbl sd ys acc = .error (.missingYearRate y2) := by
  intro ys
  induction ys with
  | nil =>
    rintro acc ⟨y, hy, -⟩
    exact absurd hy (List.not_mem_nil y)
  | cons y0 rest ih =>
    rintro acc ⟨y, hy, hnone⟩
    cases h0 : lookupRate tbl y0 with
    | none => exact ⟨y0, List.mem_cons_self _ _, h0, by simp [year_loop, h0]⟩
    | some r =>
      have hyr : y ∈ rest := by
        rcases List.mem_cons.mp hy with rfl | h
        · rw [h0] at hnone
          exact absurd hnone (by simp)
        · exact h
      obtain ⟨y2, hy2, hn2, herr⟩ :=
        ih (day_loop y0 (pow1n (1 + r / 100) (days_in_year y0)) sd
          (List.range' 1 (days_in_year y0)) acc) ⟨y, hyr, hnone⟩
      exact ⟨y2, List.mem_cons_of_mem _ hy2, hn2, by simp [year_loop, h0, herr]⟩

/-- C4: `precompute_inflation_factors` fails with `missingYearRate`
whenever some year between `start_date.year` and
`min(END_DATE, max table year)` — the code's end year — is absent from the
table (general part), and, in particular, requesting the curve from a 2019
start date against a table covering 2020-2024 raises the error referencing
year 2019 itself. -/
theorem missing_year_rate_error {K : Type*} [Field K] [DecidableEq K]
    (pow1n : K → Nat → K) :
    (∀ (tbl : List (Nat × K)) (sd : Date) (y : Nat), tbl ≠ [] →
        sd.year ≤ y → y ≤ min END_DATE (maxTableYear tbl) →
        lookupRate tbl y = none →
        ∃ y2, sd.year ≤ y2 ∧ y2 ≤ min END_DATE (maxTableYear tbl) ∧
          lookupRate tbl y2 = none ∧
          precompute_inflation_factors pow1n tbl sd =
            .error (.missingYearRate y2)) ∧
    (∀ (r20 r21 r22 r23 r24 : K) (dy : Nat),
        precompute_inflation_factors pow1n
          [(2020, r20), (2021, r21), (2022, r22), (2023, r23), (2024, r24)]
          ⟨2019, dy⟩ = .error (.missingYearRate 2019)) := by
  constructor
  · intro tbl sd y _ h1 h2 hnone
    have hmem :
        y ∈ List.range' sd.year (min END_DATE (maxTableYear tbl) + 1 - sd.year) := by
      rw [List.mem_range'_1]
      omega
    obtain ⟨y2, hy2mem, hn2, herr⟩ :=
      year_loop_error_of_missing pow1n tbl sd _ (1, []) ⟨y, hmem, hnone⟩
    rw [List.mem_range'_1] at hy2mem
    refine ⟨y2, by omega, by omega, hn2, ?_⟩
    simp [precompute_inflation_factors, herr, Except.map]
  · intro r20 r21 r22 r23 r24 dy
    have hm :
        maxTableYear [(2020, r20), (2021, r21), (2022, r22), (2023, r23), (2024, r24)] =
          2024 := rfl
    have h1 :
        List.range' (2019 : Nat)
          (min END_DATE
            (maxTableYear
              [(2020, r20), (2021, r21), (2022, r22), (2023, r23), (2024, r24)]) +
            1 - 2019) = [2019, 2020, 2021, 2022, 2023, 2024] := by
      rw [hm]
      rfl
    unfold precompute_inflation_factors
    rw [h1]
    rfl

/-- C4, witness: both parts applied at concrete inputs. -/
theorem missing_year_rate_error_witness :
    (([((2020 : Nat), (1 : ℚ))] : List (Nat × ℚ)) ≠ [] ∧
      (⟨2019, 1⟩ : Date).year ≤ 2019 ∧
      2019 ≤ min END_DATE (maxTableYear [((2020 : Nat), (1 : ℚ))]) ∧
      lookupRate [((2020 : Nat), (1 : ℚ))] 2019 = none ∧
      ∃ y2, (⟨2019, 1⟩ : Date).year ≤ y2 ∧
        y2 ≤ min END_DATE (maxTableYear [((2020 : Nat), (1 : ℚ))]) ∧
        lookupRate [((2020 : Nat), (1 : ℚ))] y2 = none ∧
        precompute_inflation_factors (fun (x : ℚ) (_ : Nat) => x)
          [((2020 : Nat), (1 : ℚ))] ⟨2019, 1⟩ =
          .error (.missingYearRate y2)) ∧
    precompute_inflation_factors (fun (x : ℚ) (_ : Nat) => x)
      [((2020 : Nat), (1 : ℚ)), ((2021 : Nat), 1), ((2022 : Nat), 1),
        ((2023 : Nat), 1), ((2024 : Nat), 1)] ⟨2019, 7⟩ =
      .error (.missingYearRate 2019) :=
  ⟨⟨by decide, by decide, by decide, by rfl,
    (missing_year_rate_error (fun (x : ℚ) (_ : Nat) => x)).1
      [((2020 : Nat), (1 : ℚ))] ⟨2019, 1⟩ 2019 (by decide) (by decide)
      (by decide) (by rfl)⟩,
   (missing_year_rate_error (fun (x : ℚ) (_ : Nat) => x)).2 1 1 1 1 1 7⟩

/-- The inner matrix loop: an `ok` row consists of the cells of `f` at the
keys `(a, b)` for `b` running over the column labels. -/
theorem rowCells_spec {K : Type*} (f : String → String → Except PyErr (Option K))
    (a : String) : ∀ bs row, rowCells f a bs = .ok row →
      row.map Prod.fst = bs.map (fun b => (a, b)) ∧
      ∀ pr ∈ row, pr.1.1 = a ∧ f a pr.1.2 = .ok pr.2 := by
  intro bs
  induction bs with
  | nil =>
    intro row h
    simp only [rowCells, Except.ok.injEq] at h
    subst h
    simp
  | cons b rest ih =>
    intro row h
    cases hfb : f a b with
    | error e => simp [rowCells, hfb] at h
    | ok v =>
      cases hrest : rowCells f a rest with
      | error e => simp [rowCells, hfb, hrest] at h
      | ok row0 =>
        simp only [rowCells, hfb, hrest, Except.ok.injEq] at h
        subst h
        obtain ⟨hsh, hmem⟩ := ih row0 hrest
        refine ⟨by simp [hsh], ?_⟩
        intro pr hpr
        rcases List.mem_cons.mp hpr with rfl | hpr2
        · exact ⟨rfl, hfb⟩
        · exact hmem pr hpr2

/-- Every cell of an `ok` matrix is the value of `f` at its own key. -/
theorem allCells_spec {K : Type*} (f : String → String → Except PyErr (Option K))
    (bs : List String) : ∀ as cells, allCells f as bs = .ok cells →
      ∀ pr ∈ cells, f pr.1.1 pr.1.2 = .ok pr.2 := by
  intro as
  induction as with
  | nil =>
    intro cells h
    simp only [allCells, Except.ok.injEq] at h
    subst h
    simp
  | cons a rest ih =>
    intro cells h
    cases hrow : rowCells f a bs with
    | error e => simp [allCells, hrow] at h
    | ok row =>
      cases hrec : allCells f rest bs with
      | error e => simp [allCells, hrow, hrec] at h
      | ok cells0 =>
        simp only [allCells, hrow, hrec, Except.ok.injEq] at h
        subst h
        intro pr hpr
        rcases List.mem_append.mp hpr with h1 | h2
        · obtain ⟨ha, hf⟩ := (rowCells_spec f a bs row hrow).2 pr h1
          rw [ha]
          exact hf
        · exact ih cells0 hrec pr h2

/-- An `ok` matrix has a cell at every (row label, column label) pair. -/
theorem allCells_keys {K : Type*} (f : String → String → Except PyErr (Option K))
    (bs : List String) : ∀ as cells a b, allCells f as bs = .ok cells →
      a ∈ as → b ∈ bs → (a, b) ∈ cells.map Prod.fst := by
  intro as
  induction as with
  | nil =>
    intro cells a b _ ha
    exact absurd ha (List.not_mem_nil a)
  | cons a0 rest ih =>
    intro cells a b h ha hb
    cases hrow : rowCells f a0 bs with
    | error e => simp [allCells, hrow] at h
    | ok row =>
      cases hrec : allCells f rest bs with
      | error e => simp [allCells, hrow, hrec] at h
      | ok cells0 =>
        simp only [allCells, hrow, hrec, Except.ok.injEq] at h
        subst h
        rw [List.map_append]
        rcases List.mem_cons.mp ha with rfl | ha2
        · refine List.mem_append_left _ ?_
          rw [(rowCells_spec f a bs row hrow).1]
          exact List.mem_map_of_mem _ hb
        · exact List.mem_append_right _ (ih cells0 a b hrec ha2 hb)

/-- Reading an `ok` matrix at a key present among the labels returns the
value `f` computes for that key. -/
theorem findCell_of_cellE {K : Type*} (f : String → String → Except PyErr (Option K))
    (as bs : List String) (cells : List ((String × String) × Option K))
    (a b : String) (v : Option K) (hall : allCells f as bs = .ok cells)
    (ha : a ∈ as) (hb : b ∈ bs) (hv : f a b = .ok v) :
    findCell a b cells = some v := by
  have hkey := allCells_keys f bs as cells a b hall ha hb
  obtain ⟨pr, hpr, hfst⟩ := List.mem_map.mp hkey
  have hfind : (cells.find? fun pr => decide (pr.1 = (a, b))).isSome := by
    rw [List.find?_isSome]
    exact ⟨pr, hpr, by simp [hfst]⟩
  obtain ⟨pr0, hpr0⟩ := Option.isSome_iff_exists.mp hfind
  have hp0 : pr0.1 = (a, b) := by simpa using List.find?_some hpr0
  have hf0 := allCells_spec f bs as cells hall pr0 (List.mem_of_find?_eq_some hpr0)
  rw [hp0] at hf0
  rw [hv] at hf0
  simp only [Except.ok.injEq] at hf0
  rw [findCell, hpr0, hf0]
  rfl

/-- The inner loop never raises when `f` never raises on the column labels. -/
theorem rowCells_total {K : Type*} (f : String → String → Except PyErr (Option K))
    (a : String) : ∀ bs, (∀ b ∈ bs, ∃ v, f a b = .ok v) →
      ∃ row, rowCells f a bs = .ok row := by
  intro bs
  induction bs with
  | nil => exact fun _ => ⟨[], rfl⟩
  | cons b rest ih =>
    intro h
    obtain ⟨v, hv⟩ := h b (List.mem_cons_self _ _)
    obtain ⟨row0, h0⟩ := ih fun b2 hb2 => h b2 (List.mem_cons_of_mem _ hb2)
    exact ⟨((a, b), v) :: row0, by simp [rowCells, hv, h0]⟩

/-- The matrix loop never raises when `f` never raises on the labels. -/
theorem allCells_total {K : Type*} (f : String → String → Except PyErr (Option K))
    (bs : List String) : ∀ as, (∀ a ∈ as, ∀ b ∈ bs, ∃ v, f a b = .ok v) →
      ∃ cells, allCells f as bs = .ok cells := by
  intro as
  induction as with
  | nil => exact fun _ => ⟨[], rfl⟩
  | cons a rest ih =>
    intro h
    obtain ⟨row, hrow⟩ := rowCells_total f a bs (h a (List.mem_cons_self _ _))
    obtain ⟨cells0, h0⟩ := ih fun a2 ha2 => h a2 (List.mem_cons_of_mem _ ha2)
    exact ⟨row ++ cells0, by simp [allCells, hrow, h0]⟩

/-- Without an inflation table the data-collection loop cannot raise. -/
theorem phase1_none_total {K : Type*} [Field K] [DecidableEq K]
    (pow1n : K → Nat → K) (fetch : String → Option (List (Record K))) :
    ∀ tmap acc, ∃ st, phase1 pow1n fetch none tmap acc = .ok st := by
  intro tmap
  induction tmap with
  | nil => exact fun acc => ⟨acc, rfl⟩
  | cons p rest ih =>
    intro acc
    obtain ⟨t, l⟩ := p
    cases hf : fetch t with
    | none =>
      obtain ⟨st, h⟩ := ih acc
      exact ⟨st, by simp [phase1, hf, h]⟩
    | some h1 =>
      cases he : h1.isEmpty with
      | true =>
        obtain ⟨st, h⟩ := ih acc
        exact ⟨st, by simp [phase1, hf, he, h]⟩
      | false =>
        obtain ⟨st, h⟩ := ih ((l, datesOf h1) :: acc.1, (l, pricesOf h1) :: acc.2)
        exact ⟨st, by simp [phase1, hf, he, h]⟩

/-- Labels never processed by the data-collection loop keep whatever the
accumulator dicts already said about them. -/
theorem phase1_preserve {K : Type*} [Field K] [DecidableEq K]
    (pow1n : K → Nat → K) (fetch : String → Option (List (Record K)))
    (inflOpt : Option (List (Nat × K))) :
    ∀ tmap acc st (l : String), l ∉ tmap.map Prod.snd →
      phase1 pow1n fetch inflOpt tmap acc = .ok st →
      lookupStr st.1 l = lookupStr acc.1 l ∧ lookupStr st.2 l = lookupStr acc.2 l := by
  intro tmap
  induction tmap with
  | nil =>
    intro acc st l _ h
    simp only [phase1, Except.ok.injEq] at h
    subst h
    exact ⟨rfl, rfl⟩
  | cons p rest ih =>
    intro acc st l hl h
    obtain ⟨t, l0⟩ := p
    have hl0 : ¬ l0 = l := by
      intro heq
      exact hl (by simp [heq])
    have hlr : l ∉ rest.map Prod.snd := by
      intro hmem
      exact hl (by simp [hmem])
    cases hf : fetch t with
    | none =>
      simp only [phase1, hf] at h
      exact ih acc st l hlr h
    | some h1 =>
      cases he : h1.isEmpty with
      | true =>
        simp only [phase1, hf, he, if_true] at h
        exact ih acc st l hlr h
      | false =>
        cases inflOpt with
        | none =>
          simp only [phase1, hf, he, Bool.false_eq_true, if_false] at h
          obtain ⟨h1l, h2l⟩ := ih _ st l hlr h
          constructor
          · rw [h1l, lookupStr, List.find?_cons_of_neg _ (by simpa using hl0)]
            rfl
          · rw [h2l, lookupStr, List.find?_cons_of_neg _ (by simpa using hl0)]
            rfl
        | some tbl =>
          cases hpre : precompute_inflation_factors pow1n tbl (minDateOf h1) with
          | error e => simp [phase1, hf, he, hpre] at h
          | ok factors =>
            simp only [phase1, hf, he, Bool.false_eq_true, if_false, hpre] at h
            obtain ⟨h1l, h2l⟩ := ih _ st l hlr h
            constructor
            · rw [h1l, lookupStr, List.find?_cons_of_neg _ (by simpa using hl0)]
              rfl
            · rw [h2l, lookupStr, List.find?_cons_of_neg _ (by simpa using hl0)]
              rfl

/-- With no inflation table and distinct labels, the dicts the collection
loop builds hold, for a label whose fetch succeeded with nonempty history,
exactly that history's date set and price dict. -/
theorem phase1_none_lookup {K : Type*} [Field K] [DecidableEq K]
    (pow1n : K → Nat → K) (fetch : String → Option (List (Record K))) :
    ∀ tmap acc (tA A : String) (hist : List (Record K)),
      (tmap.map Prod.snd).Nodup → (tA, A) ∈ tmap → fetch tA = some hist →
      hist ≠ [] → ∀ st, phase1 pow1n fetch none tmap acc = .ok st →
      lookupStr st.1 A = some (datesOf hist) ∧
      lookupStr st.2 A = some (pricesOf hist) := by
  intro tmap
  induction tmap with
  | nil =>
    intro _ _ _ _ _ hmem
    exact absurd hmem (List.not_mem_nil _)
  | cons p rest ih =>
    rintro acc tA A hist hnd hmem hf hne st hph
    obtain ⟨t0, l0⟩ := p
    have hndc : l0 ∉ rest.map Prod.snd ∧ (rest.map Prod.snd).Nodup := by
      rw [List.map_cons] at hnd
      exact List.nodup_cons.mp hnd
    by_cases hA : l0 = A
    · subst hA
      have ht0 : t0 = tA := by
        rcases List.mem_cons.mp hmem with heq | hmem2
        · exact (Prod.mk.injEq _ _ _ _ ▸ heq).1.symm
        · exact absurd (List.mem_map_of_mem Prod.snd hmem2) hndc.1
      subst ht0
      have hee : hist.isEmpty = false := by
        cases hist
        · exact absurd rfl hne
        · rfl
      simp only [phase1, hf, hee, Bool.false_eq_true, if_false] at hph
      obtain ⟨h1l, h2l⟩ := phase1_preserve pow1n fetch none rest _ st l0 hndc.1 hph
      constructor
      · rw [h1l, lookupStr]
        simp
      · rw [h2l, lookupStr]
        simp
    · have hmem2 : (tA, A) ∈ rest := by
        rcases List.mem_cons.mp hmem with heq | h2
        · exact absurd ((Prod.mk.injEq _ _ _ _ ▸ heq).2.symm) hA
        · exact h2
      have hnd2 : (rest.map Prod.snd).Nodup := hndc.2
      cases hf0 : fetch t0 with
      | none =>
        simp only [phase1, hf0] at hph
        exact ih acc tA A hist hnd2 hmem2 hf hne st hph
      | some h0 =>
        cases he0 : h0.isEmpty with
        | true =>
          simp only [phase1, hf0, he0, if_true] at hph
          exact ih acc tA A hist hnd2 hmem2 hf hne st hph
        | false =>
          simp only [phase1, hf0, he0, Bool.false_eq_true, if_false] at hph
          exact ih _ tA A hist hnd2 hmem2 hf hne st hph

/-- A cell whose two labels are present in both dicts cannot raise. -/
theorem cellE_total {K : Type*} [Field K] [DecidableEq K] {β : Type*}
    [DecidableEq β] (sqrtK : K → K) (freq : Date → β)
    (ds : List (String × List Date)) (cp : List (String × List (Date × K)))
    (l1 l2 : String) (h1 : (lookupStr ds l1).isSome)
    (h2 : (lookupStr ds l2).isSome) (h3 : (lookupStr cp l1).isSome)
    (h4 : (lookupStr cp l2).isSome) :
    ∃ v, cellE sqrtK freq ds cp l1 l2 = .ok v := by
  by_cases heq : l1 = l2
  · exact ⟨some 1, by simp [cellE, heq]⟩
  · obtain ⟨s1, hs1⟩ := Option.isSome_iff_exists.mp h1
    obtain ⟨s2, hs2⟩ := Option.isSome_iff_exists.mp h2
    obtain ⟨p1, hp1⟩ := Option.isSome_iff_exists.mp h3
    obtain ⟨p2, hp2⟩ := Option.isSome_iff_exists.mp h4
    simp only [cellE, heq, if_false, hs1, hs2, hp1, hp2]
    split
    · exact ⟨none, rfl⟩
    · exact ⟨_, rfl⟩

/-- C1: whenever `calculate_pairwise_correlation` returns a matrix — for any
labeled series (any fetch results, any inflation option) and any resampling
frequency — the diagonal cell of every requested instrument, in particular
of every instrument with at least one fetched data point, holds exactly
`1.0`.  The diagonal branch of the cell loop runs before any data access
(run.py lines 239-240), so the value does not depend on the instrument's
prices, dates or the frequency: no correlation is computed for that cell. -/
theorem pairwise_diagonal_one {K : Type*} [Field K] [DecidableEq K]
    {β : Type*} [DecidableEq β] (pow1n : K → Nat → K) (sqrtK : K → K)
    (tmap : List (String × String)) (fetch : String → Option (List (Record K)))
    (inflOpt : Option (List (Nat × K))) (freq : Date → β)
    (cells : List ((String × String) × Option K)) (tA A : String)
    (histA : List (Record K)) (hm : (tA, A) ∈ tmap)
    (hf : fetch tA = some histA) (hne : histA ≠ [])
    (hok : calculate_pairwise_correlation pow1n sqrtK tmap fetch inflOpt freq =
      .ok cells) :
    findCell A A cells = some (some 1) := by
  unfold calculate_pairwise_correlation at hok
  cases hph : phase1 pow1n fetch inflOpt tmap ([], []) with
  | error e =>
    rw [hph] at hok
    simp at hok
  | ok st =>
    rw [hph] at hok
    have hA : A ∈ tmap.map Prod.snd := List.mem_map_of_mem Prod.snd hm
    exact findCell_of_cellE _ _ _ cells A A (some 1) hok hA hA (by simp [cellE])

/-- The fetch map of the C1 witness: one instrument, one data point. -/
def fetchOne : String → Option (List (Record ℚ)) :=
  fun t => if t = "T1" then some [⟨⟨2020, 1⟩, 5, none⟩] else none

/-- C1, witness at a concrete input. -/
theorem pairwise_diagonal_one_witness :
    (("T1", "A") ∈ [("T1", "A")]) ∧
    fetchOne "T1" = some [⟨⟨2020, 1⟩, 5, none⟩] ∧
    ([⟨⟨2020, 1⟩, (5 : ℚ), none⟩] : List (Record ℚ)) ≠ [] ∧
    calculate_pairwise_correlation (fun (x : ℚ) (_ : Nat) => x) (fun x => x)
      [("T1", "A")] fetchOne none (fun d => d) = .ok [(("A", "A"), some 1)] ∧
    findCell "A" "A" [(("A", "A"), some (1 : ℚ))] = some (some 1) :=
  ⟨by decide, by rfl, by decide, by rfl,
   pairwise_diagonal_one (fun (x : ℚ) (_ : Nat) => x) (fun x => x)
     [("T1", "A")] fetchOne none (fun d => d) [(("A", "A"), some 1)]
     "T1" "A" [⟨⟨2020, 1⟩, 5, none⟩] (by decide) (by rfl) (by decide) (by rfl)⟩

/-- C2: for two distinct instruments whose fetched histories have no date
in common (and a batch in which every requested fetch succeeds with data,
so the computation completes), `calculate_pairwise_correlation` returns a
matrix and stores the explicit undefined sentinel (`None`, i.e. the `NaN`
cell of the float DataFrame, modelled `none`) in that pair's cell: the
result is `ok`, not an exception, and the cell is `none`, not `0`. -/
theorem empty_intersection_cell_undefined {K : Type*} [Field K] [DecidableEq K]
    {β : Type*} [DecidableEq β] (pow1n : K → Nat → K) (sqrtK : K → K)
    (tmap : List (String × String)) (fetch : String → Option (List (Record K)))
    (freq : Date → β) (tA tB A B : String) (histA histB : List (Record K))
    (hnd : (tmap.map Prod.snd).Nodup)
    (hall : ∀ p ∈ tmap, ∃ h, fetch p.1 = some h ∧ h ≠ ([] : List (Record K)))
    (hmA : (tA, A) ∈ tmap) (hmB : (tB, B) ∈ tmap) (hABne : A ≠ B)
    (hfA : fetch tA = some histA) (hneA : histA ≠ [])
    (hfB : fetch tB = some histB) (hneB : histB ≠ [])
    (hdisj : ∀ d ∈ datesOf histA, d ∉ datesOf histB) :
    (calculate_pairwise_correlation pow1n sqrtK tmap fetch none freq).map
      (findCell A B) = .ok (some none) := by
  obtain ⟨st, hph⟩ := phase1_none_total pow1n fetch tmap ([], [])
  have hlook : ∀ l ∈ tmap.map Prod.snd,
      (lookupStr st.1 l).isSome ∧ (lookupStr st.2 l).isSome := by
    intro l hl
    obtain ⟨p, hp, hpl⟩ := List.mem_map.mp hl
    obtain ⟨h0, hf0, hne0⟩ := hall p hp
    have hp2 : (p.1, l) ∈ tmap := by
      rw [← hpl, Prod.mk.eta]
      exact hp
    obtain ⟨ha1, ha2⟩ :=
      phase1_none_lookup pow1n fetch tmap ([], []) p.1 l h0 hnd hp2 hf0 hne0 st hph
    exact ⟨by rw [ha1]; rfl, by rw [ha2]; rfl⟩
  have htot : ∀ a ∈ tmap.map Prod.snd, ∀ b ∈ tmap.map Prod.snd,
      ∃ v, cellE sqrtK freq st.1 st.2 a b = .ok v := fun a ha b hb =>
    cellE_total sqrtK freq st.1 st.2 a b (hlook a ha).1 (hlook b hb).1
      (hlook a ha).2 (hlook b hb).2
  obtain ⟨cells, hcells⟩ :=
    allCells_total (cellE sqrtK freq st.1 st.2) (tmap.map Prod.snd)
      (tmap.map Prod.snd) htot
  have hdsA :=
    phase1_none_lookup pow1n fetch tmap ([], []) tA A histA hnd hmA hfA hneA st hph
  have hdsB :=
    phase1_none_lookup pow1n fetch tmap ([], []) tB B histB hnd hmB hfB hneB st hph
  have hcAB : cellE sqrtK freq st.1 st.2 A B = .ok none := by
    have hc : ((datesOf histA).filter fun d => decide (d ∈ datesOf histB)) = [] := by
      rw [List.filter_eq_nil_iff]
      intro d hd
      simpa using hdisj d hd
    simp only [cellE, if_neg hABne, hdsA.1, hdsB.1, hc]
    rfl
  have hcalc : calculate_pairwise_correlation pow1n sqrtK tmap fetch none freq =
      .ok cells := by
    unfold calculate_pairwise_correlation
    rw [hph]
    exact hcells
  have hfind := findCell_of_cellE (cellE sqrtK freq st.1 st.2)
    (tmap.map Prod.snd) (tmap.map Prod.snd) cells A B none hcells
    (List.mem_map_of_mem Prod.snd hmA) (List.mem_map_of_mem Prod.snd hmB) hcAB
  rw [hcalc]
  simp [Except.map, hfind]

/-- The fetch map of the C2 witness: two instruments with disjoint dates. -/
def fetch2 : String → Option (List (Record ℚ)) :=
  fun t =>
    if t = "T1" then some [⟨⟨2020, 1⟩, 5, none⟩]
    else if t = "T2" then some [⟨⟨2021, 1⟩, 7, none⟩] else none

/-- C2, witness at a concrete input. -/
theorem empty_intersection_cell_undefined_witness :
    (∀ d ∈ datesOf [⟨⟨2020, 1⟩, (5 : ℚ), none⟩],
        d ∉ datesOf [⟨⟨2021, 1⟩, (7 : ℚ), none⟩]) ∧
    (calculate_pairwise_correlation (fun (x : ℚ) (_ : Nat) => x) (fun x => x)
        [("T1", "A"), ("T2", "B")] fetch2 none (fun d => d)).map
      (findCell "A" "B") = .ok (some none) :=
  ⟨by decide,
   empty_intersection_cell_undefined (fun (x : ℚ) (_ : Nat) => x) (fun x => x)
     [("T1", "A"), ("T2", "B")] fetch2 (fun d => d) "T1" "T2" "A" "B"
     [⟨⟨2020, 1⟩, 5, none⟩] [⟨⟨2021, 1⟩, 7, none⟩] (by decide)
     (by
       intro p hp
       rcases List.mem_cons.mp hp with rfl | hp2
       · exact ⟨[⟨⟨2020, 1⟩, 5, none⟩], rfl, by decide⟩
       · rcases List.mem_cons.mp hp2 with rfl | hp3
         · exact ⟨[⟨⟨2021, 1⟩, 7, none⟩], rfl, by decide⟩
         · exact absurd hp3 (List.not_mem_nil _))
     (by decide) (by decide) (by decide) (by rfl) (by decide) (by rfl)
     (by decide) (by decide)⟩

/-- C3: for two distinct instruments with common dates whose resampled
price sequence (for at least one side) has zero variance — constant prices
— the correlation the code stores is the `NaN` that `DataFrame.corr`
produces for a zero standard deviation, i.e. the same undefined value
(`none`) as the explicit no-data sentinel, and never `0.0`: the matrix
cell holds the undefined marker, not a fabricated number. -/
theorem zero_variance_cell_undefined {K : Type*} [Field K] [DecidableEq K]
    {β : Type*} [DecidableEq β] (pow1n : K → Nat → K) (sqrtK : K → K)
    (tmap : List (String × String)) (fetch : String → Option (List (Record K)))
    (freq : Date → β) (tA tB A B : String) (histA histB : List (Record K))
    (hnd : (tmap.map Prod.snd).Nodup)
    (hall : ∀ p ∈ tmap, ∃ h, fetch p.1 = some h ∧ h ≠ ([] : List (Record K)))
    (hmA : (tA, A) ∈ tmap) (hmB : (tB, B) ∈ tmap) (hABne : A ≠ B)
    (hfA : fetch tA = some histA) (hneA : histA ≠ [])
    (hfB : fetch tB = some histB) (hneB : histB ≠ [])
    (hcne : interDates histA histB ≠ [])
    (hvar : sqDevSum (resample_mean freq (alignedPts (pricesOf histA)
        (sortDates (interDates histA histB)))) = 0) :
    (calculate_pairwise_correlation pow1n sqrtK tmap fetch none freq).map
      (findCell A B) = .ok (some none) := by
  obtain ⟨st, hph⟩ := phase1_none_total pow1n fetch tmap ([], [])
  have hlook : ∀ l ∈ tmap.map Prod.snd,
      (lookupStr st.1 l).isSome ∧ (lookupStr st.2 l).isSome := by
    intro l hl
    obtain ⟨p, hp, hpl⟩ := List.mem_map.mp hl
    obtain ⟨h0, hf0, hne0⟩ := hall p hp
    have hp2 : (p.1, l) ∈ tmap := by
      rw [← hpl, Prod.mk.eta]
      exact hp
    obtain ⟨ha1, ha2⟩ :=
      phase1_none_lookup pow1n fetch tmap ([], []) p.1 l h0 hnd hp2 hf0 hne0 st hph
    exact ⟨by rw [ha1]; rfl, by rw [ha2]; rfl⟩
  have htot : ∀ a ∈ tmap.map Prod.snd, ∀ b ∈ tmap.map Prod.snd,
      ∃ v, cellE sqrtK freq st.1 st.2 a b = .ok v := fun a ha b hb =>
    cellE_total sqrtK freq st.1 st.2 a b (hlook a ha).1 (hlook b hb).1
      (hlook a ha).2 (hlook b hb).2
  obtain ⟨cells, hcells⟩ :=
    allCells_total (cellE sqrtK freq st.1 st.2) (tmap.map Prod.snd)
      (tmap.map Prod.snd) htot
  have hdsA :=
    phase1_none_lookup pow1n fetch tmap ([], []) tA A histA hnd hmA hfA hneA st hph
  have hdsB :=
    phase1_none_lookup pow1n fetch tmap ([], []) tB B histB hnd hmB hfB hneB st hph
  have hcAB : cellE sqrtK freq st.1 st.2 A B = .ok none := by
    have hie : (interDates histA histB).isEmpty = false := by
      cases hI : interDates histA histB
      · exact absurd hI hcne
      · rfl
    have hci : ((datesOf histA).filter fun d => decide (d ∈ datesOf histB)) =
        interDates histA histB := rfl
    simp only [cellE, if_neg hABne, hdsA.1, hdsB.1, hdsA.2, hdsB.2, hci, hie,
      Bool.false_eq_true, if_false]
    by_cases hrxe : (resample_mean freq (alignedPts (pricesOf histA)
        (sortDates (interDates histA histB)))).isEmpty
    · simp [pairCell, df_corr, hrxe]
    · simp [pairCell, df_corr, hrxe, hvar]
  have hcalc : calculate_pairwise_correlation pow1n sqrtK tmap fetch none freq =
      .ok cells := by
    unfold calculate_pairwise_correlation
    rw [hph]
    exact hcells
  have hfind := findCell_of_cellE (cellE sqrtK freq st.1 st.2)
    (tmap.map Prod.snd) (tmap.map Prod.snd) cells A B none hcells
    (List.mem_map_of_mem Prod.snd hmA) (List.mem_map_of_mem Prod.snd hmB) hcAB
  rw [hcalc]
  simp [Except.map, hfind]

/-- The fetch map of the C3 witness: instrument A has constant prices on
the two common dates, instrument B varies. -/
def fetch3 : String → Option (List (Record ℚ)) :=
  fun t =>
    if t = "T1" then some [⟨⟨2020, 1⟩, 5, none⟩, ⟨⟨2020, 2⟩, 5, none⟩]
    else if t = "T2" then some [⟨⟨2020, 1⟩, 1, none⟩, ⟨⟨2020, 2⟩, 2, none⟩]
    else none

/-- C3, witness at a concrete input. -/
theorem zero_variance_cell_undefined_witness :
    interDates [⟨⟨2020, 1⟩, (5 : ℚ), none⟩, ⟨⟨2020, 2⟩, 5, none⟩]
        [⟨⟨2020, 1⟩, (1 : ℚ), none⟩, ⟨⟨2020, 2⟩, 2, none⟩] ≠ [] ∧
    sqDevSum (resample_mean (fun d => d)
        (alignedPts (pricesOf [⟨⟨2020, 1⟩, (5 : ℚ), none⟩, ⟨⟨2020, 2⟩, 5, none⟩])
          (sortDates (interDates [⟨⟨2020, 1⟩, (5 : ℚ), none⟩, ⟨⟨2020, 2⟩, 5, none⟩]
            [⟨⟨2020, 1⟩, (1 : ℚ), none⟩, ⟨⟨2020, 2⟩, 2, none⟩])))) = 0 ∧
    (calculate_pairwise_correlation (fun (x : ℚ) (_ : Nat) => x) (fun x => x)
        [("T1", "A"), ("T2", "B")] fetch3 none (fun d => d)).map
      (findCell "A" "B") = .ok (some none) := by
  have hvar : sqDevSum (resample_mean (fun d => d)
      (alignedPts (pricesOf [⟨⟨2020, 1⟩, (5 : ℚ), none⟩, ⟨⟨2020, 2⟩, 5, none⟩])
        (sortDates (interDates [⟨⟨2020, 1⟩, (5 : ℚ), none⟩, ⟨⟨2020, 2⟩, 5, none⟩]
          [⟨⟨2020, 1⟩, (1 : ℚ), none⟩, ⟨⟨2020, 2⟩, 2, none⟩])))) = 0 := by
    have h1 : interDates [⟨⟨2020, 1⟩, (5 : ℚ), none⟩, ⟨⟨2020, 2⟩, 5, none⟩]
        [⟨⟨2020, 1⟩, (1 : ℚ), none⟩, ⟨⟨2020, 2⟩, 2, none⟩] =
        [⟨2020, 1⟩, ⟨2020, 2⟩] := by decide
    rw [h1]
    have h2 : sortDates [⟨2020, 1⟩, ⟨2020, 2⟩] = [⟨2020, 1⟩, ⟨2020, 2⟩] := by decide
    rw [h2]
    have h3 : alignedPts (pricesOf [⟨⟨2020, 1⟩, (5 : ℚ), none⟩, ⟨⟨2020, 2⟩, 5, none⟩])
        [⟨2020, 1⟩, ⟨2020, 2⟩] = [(⟨2020, 1⟩, 5), (⟨2020, 2⟩, 5)] := by decide
    rw [h3]
    norm_num [resample_mean, distincts, distinctsAux, sqDevSum, List.filter]
  refine ⟨by decide, hvar, ?_⟩
  exact zero_variance_cell_undefined (fun (x : ℚ) (_ : Nat) => x) (fun x => x)
    [("T1", "A"), ("T2", "B")] fetch3 (fun d => d) "T1" "T2" "A" "B"
    [⟨⟨2020, 1⟩, 5, none⟩, ⟨⟨2020, 2⟩, 5, none⟩]
    [⟨⟨2020, 1⟩, 1, none⟩, ⟨⟨2020, 2⟩, 2, none⟩] (by decide)
    (by
      intro p hp
      rcases List.mem_cons.mp hp with rfl | hp2
      · exact ⟨[⟨⟨2020, 1⟩, 5, none⟩, ⟨⟨2020, 2⟩, 5, none⟩], rfl, by decide⟩
      · rcases List.mem_cons.mp hp2 with rfl | hp3
        · exact ⟨[⟨⟨2020, 1⟩, 1, none⟩, ⟨⟨2020, 2⟩, 2, none⟩], rfl, by decide⟩
        · exact absurd hp3 (List.not_mem_nil _))
    (by decide) (by decide) (by decide) (by rfl) (by decide) (by rfl)
    (by decide) (by decide) hvar

/-- When every day of the run is on or after the start date, the day loop
multiplies the cumulative factor once per day and appends one entry per
day. -/
theorem day_loop_all {K : Type*} [Field K] (year : Nat) (f : K) (sd : Date) :
    ∀ ds (cum : K) facs, (∀ d ∈ ds, Date.le sd ⟨year, d⟩) →
      day_loop year f sd ds (cum, facs) =
        (cum * f ^ ds.length, facs ++ scan_entries year f cum ds) := by
  intro ds
  induction ds with
  | nil =>
    intro cum facs _
    simp [day_loop, scan_entries]
  | cons d rest ih =>
    intro cum facs hall
    simp only [day_loop, if_pos (hall d (List.mem_cons_self _ _))]
    rw [ih (cum * f) (facs ++ [(({ year := year, doy := d } : Date), cum * f)])
      (fun d2 h2 => hall d2 (List.mem_cons_of_mem _ h2))]
    rw [Prod.mk.injEq]
    constructor
    · simp only [List.length_cons]
      ring
    · rw [scan_entries]
      simp

/-- The last entry the day loop records for days `ds` carries the start
cumulative multiplied by `f` once per day. -/
theorem scan_entries_getLast {K : Type*} [Field K] (year : Nat) (f : K) :
    ∀ ds (cum : K) (dl : Nat), ds.getLast? = some dl →
      (scan_entries year f cum ds).getLast? =
        some (⟨year, dl⟩, cum * f ^ ds.length) := by
  intro ds
  induction ds with
  | nil =>
    intro _ _ h
    simp at h
  | cons d rest ih =>
    intro cum dl h
    cases rest with
    | nil =>
      simp only [List.getLast?_singleton, Option.some.injEq] at h
      subst h
      simp [scan_entries, pow_one]
    | cons d2 rest2 =>
      rw [List.getLast?_cons_cons] at h
      have hcons : scan_entries year f (cum * f) (d2 :: rest2) =
          (⟨year, d2⟩, cum * f * f) :: scan_entries year f (cum * f * f) rest2 := rfl
      rw [scan_entries, hcons, List.getLast?_cons_cons, ← hcons, ih (cum * f) dl h]
      have hval : cum * f * f ^ (d2 :: rest2).length =
          cum * f ^ (d :: d2 :: rest2).length := by
        simp only [List.length_cons]
        ring
      rw [hval]

/-- The last element of a nonempty arithmetic range. -/
theorem range'_getLast : ∀ (n s : Nat), (List.range' s (n + 1)).getLast? = some (s + n) := by
  intro n
  induction n with
  | zero =>
    intro s
    rfl
  | succ n ih =>
    intro s
    rw [List.range'_succ, List.range'_succ, List.getLast?_cons_cons,
      ← List.range'_succ, ih (s + 1)]
    congr 1
    omega

/-- With daily factor `1` the day loop leaves the cumulative factor
unchanged and records `cum` at each date on or after the start date. -/
theorem day_loop_one {K : Type*} [Field K] (year : Nat) (sd : Date) :
    ∀ ds (cum : K) facs,
      day_loop year (1 : K) sd ds (cum, facs) =
        (cum, facs ++ ((ds.filter fun dd => decide (Date.le sd ⟨year, dd⟩)).map
          fun dd => (⟨year, dd⟩, cum))) := by
  intro ds
  induction ds with
  | nil =>
    intro cum facs
    simp [day_loop]
  | cons d rest ih =>
    intro cum facs
    by_cases h : Date.le sd ⟨year, d⟩
    · simp only [day_loop, if_pos h, mul_one]
      rw [ih]
      simp [List.filter_cons, h]
    · simp only [day_loop, if_neg h]
      rw [ih]
      simp [List.filter_cons, h]

/-- With a table giving rate `0` to every iterated year (and a power
operation sending `1` to `1`, as the real `x ** (1/n)` does), the year loop
succeeds with cumulative factor `1` and a curve whose entries are exactly
the in-range dates on or after the start date, all with value `1`. -/
theorem year_loop_zero {K : Type*} [Field K] [DecidableEq K]
    (pow1n : K → Nat → K) (hpow : ∀ n, pow1n 1 n = 1)
    (tbl : List (Nat × K)) (sd : Date) :
    ∀ ys facs, (∀ y ∈ ys, lookupRate tbl y = some 0) →
      ∃ entries, year_loop pow1n tbl sd ys (1, facs) = .ok (1, facs ++ entries) ∧
        ∀ e, e ∈ entries ↔ ∃ y ∈ ys, ∃ dd, dd ∈ List.range' 1 (days_in_year y) ∧
          Date.le sd ⟨y, dd⟩ ∧ e = (⟨y, dd⟩, (1 : K)) := by
  intro ys
  induction ys with
  | nil =>
    intro facs _
    exact ⟨[], by simp [year_loop], by simp⟩
  | cons y0 rest ih =>
    intro facs hall
    have h0 : lookupRate tbl y0 = some 0 := hall y0 (List.mem_cons_self _ _)
    have hf1 : pow1n (1 + 0 / 100) (days_in_year y0) = 1 := by
      rw [zero_div, add_zero, hpow]
    obtain ⟨restE, hrest, hiff⟩ := ih (facs ++ (((List.range' 1 (days_in_year y0)).filter
        fun dd => decide (Date.le sd ⟨y0, dd⟩)).map fun dd => (⟨y0, dd⟩, (1 : K))))
      (fun y hy => hall y (List.mem_cons_of_mem _ hy))
    refine ⟨(((List.range' 1 (days_in_year y0)).filter
        fun dd => decide (Date.le sd ⟨y0, dd⟩)).map fun dd => (⟨y0, dd⟩, (1 : K))) ++ restE,
      ?_, ?_⟩
    · simp only [year_loop, h0]
      rw [hf1, day_loop_one, hrest, List.append_assoc]
    · intro e
      constructor
      · intro he
        rcases List.mem_append.mp he with h1 | h2
        · obtain ⟨dd, hdd, he2⟩ := List.mem_map.mp h1
          obtain ⟨hdd1, hdd2⟩ := List.mem_filter.mp hdd
          exact ⟨y0, List.mem_cons_self _ _, dd, hdd1, by simpa using hdd2, he2.symm⟩
        · obtain ⟨y, hy, dd, hdd, hle, he2⟩ := (hiff e).mp h2
          exact ⟨y, List.mem_cons_of_mem _ hy, dd, hdd, hle, he2⟩
      · rintro ⟨y, hy, dd, hdd, hle, rfl⟩
        rcases List.mem_cons.mp hy with rfl | hy2
        · exact List.mem_append_left _ (List.mem_map_of_mem _
            (List.mem_filter.mpr ⟨hdd, by simpa using hle⟩))
        · exact List.mem_append_right _ ((hiff _).mpr ⟨y, hy2, dd, hdd, hle, rfl⟩)

/-- The real power the source uses maps `1` to `1`. -/
theorem realPow_one (n : Nat) : realPow 1 n = 1 := by
  rw [realPow]
  exact Real.one_rpow _

/-- Zero inflation rates for every iterated year make the curve succeed with
every covered date mapped to the cumulative factor `1`. -/
theorem precompute_zero_spec (tbl : List (Nat × ℝ)) (sd : Date)
    (hall : ∀ y ∈ List.range' sd.year (min END_DATE (maxTableYear tbl) + 1 - sd.year),
      lookupRate tbl y = some (0 : ℝ)) :
    ∃ curve, precompute_inflation_factors realPow tbl sd = .ok curve ∧
      ∀ e, e ∈ curve ↔
        ∃ y ∈ List.range' sd.year (min END_DATE (maxTableYear tbl) + 1 - sd.year),
          ∃ dd, dd ∈ List.range' 1 (days_in_year y) ∧ Date.le sd ⟨y, dd⟩ ∧
            e = (⟨y, dd⟩, (1 : ℝ)) := by
  obtain ⟨entries, hyl, hiff⟩ := year_loop_zero realPow realPow_one tbl sd _ [] hall
  refine ⟨entries, ?_, hiff⟩
  unfold precompute_inflation_factors
  rw [hyl]
  simp [Except.map]

/-- Dividing a series through a curve that maps `d` to the factor `1`
leaves the effective price at `d` unchanged (for a raw series with no
pre-existing adjusted closes). -/
theorem effLookup_adjust_of_factor_one {K : Type*} [Field K]
    (curve : List (Date × K)) (d : Date) (h1 : lookupDate curve d = some 1) :
    ∀ series : List (Record K), (∀ r ∈ series, r.adjClose = none) →
      effLookup (adjust_for_inflation series curve).2 d = effLookup series d := by
  have hne : curve.isEmpty = false := by
    cases hc : curve
    · rw [hc] at h1
      simp [lookupDate] at h1
    · rfl
  have hskip : ∀ (x : Record K) (l : List (Record K)), x.date ≠ d →
      effLookup (x :: l) d = effLookup l d := by
    intro x l hx
    rw [effLookup, List.find?_cons_of_neg _ (by simpa using hx), effLookup]
  have hhit : ∀ (x : Record K) (l : List (Record K)), x.date = d →
      effLookup (x :: l) d = some (effPrice x) := by
    intro x l hx
    rw [effLookup, List.find?_cons_of_pos _ (by simpa using hx)]
    rfl
  intro series
  induction series with
  | nil =>
    intro _
    simp [adjust_for_inflation, hne, effLookup]
  | cons r rest ih =>
    intro hraw
    have hr0 : r.adjClose = none := hraw r (List.mem_cons_self _ _)
    have ihr := ih fun r2 h2 => hraw r2 (List.mem_cons_of_mem _ h2)
    simp only [adjust_for_inflation, hne, Bool.false_eq_true, if_false] at ihr ⊢
    by_cases hd : r.date = d
    · have hstep : (adjustStep curve r).2 = some ⟨d, r.close, some (r.close / 1)⟩ := by
        simp only [adjustStep, hd, h1]
      simp only [List.filterMap_cons, hstep]
      rw [hhit _ _ rfl, hhit r rest hd]
      simp [effPrice, hr0, div_one]
    · cases hstep : (adjustStep curve r).2 with
      | none =>
        simp only [List.filterMap_cons, hstep]
        rw [hskip r rest hd]
        exact ihr
      | some r2 =>
        have hr2d : r2.date = r.date := by
          simp only [adjustStep] at hstep
          cases hl : lookupDate curve r.date with
          | none =>
            rw [hl] at hstep
            simp at hstep
          | some f =>
            rw [hl] at hstep
            simp only [Option.some.injEq] at hstep
            rw [← hstep]
        simp only [List.filterMap_cons, hstep]
        rw [hskip r2 _ (by rw [hr2d]; exact hd), hskip r rest hd]
        exact ihr

/-- C5: the daily compounding factor the curve uses for a year is
`(1 + rate/100) ** (1/days_in_year year)` with `days_in_year` returning 366
for leap years (2020) and 365 otherwise (2021); consequently, for any
positive rate, the cumulative factor recorded at day 366 of the leap year
2020 — the last entry of the curve started on 2020-01-01 — is the day-366
power of the leap-aware daily factor and differs from the value the
fixed-365-divisor computation would give. -/
theorem leap_year_daily_factor (r : ℝ) (hr : 0 < r) :
    days_in_year 2020 = 366 ∧ days_in_year 2021 = 365 ∧
    (precompute_inflation_factors realPow [(2020, r)] ⟨2020, 1⟩).map
      List.getLast? =
      .ok (some (⟨2020, 366⟩, realPow (1 + r / 100) 366 ^ (366 : ℕ))) ∧
    realPow (1 + r / 100) 366 ^ (366 : ℕ) ≠ fixed365_daily_factor r ^ (366 : ℕ) := by
  have hdy : days_in_year 2020 = 366 := by decide
  refine ⟨hdy, by decide, ?_, ?_⟩
  · have hrange : List.range' (2020 : Nat)
        (min END_DATE (maxTableYear [(2020, r)]) + 1 - 2020) = [2020] := by
      have hm : maxTableYear [(2020, r)] = 2020 := rfl
      rw [hm]
      rfl
    have hlr : lookupRate [(2020, r)] 2020 = some r := rfl
    unfold precompute_inflation_factors
    rw [hrange]
    simp only [year_loop, hlr, hdy]
    rw [day_loop_all 2020 (realPow (1 + r / 100) 366) ⟨2020, 1⟩ (List.range' 1 366) 1 []
      (fun dd hdd => Or.inr ⟨rfl, (List.mem_range'_1.mp hdd).1⟩)]
    have hgl : (List.range' 1 366).getLast? = some 366 := by
      have h366 := range'_getLast 365 1
      simpa using h366
    simp only [Except.map, List.nil_append]
    rw [scan_entries_getLast 2020 (realPow (1 + r / 100) 366) (List.range' 1 366) 1 366 hgl]
    simp [List.length_range']
  · have hb : (1 : ℝ) < 1 + r / 100 := by linarith
    have hb0 : (0 : ℝ) ≤ 1 + r / 100 := by linarith
    rw [fixed365_daily_factor, realPow, realPow]
    push_cast
    rw [← Real.rpow_natCast ((1 + r / 100) ^ ((1 : ℝ) / 366)) 366,
      ← Real.rpow_natCast ((1 + r / 100) ^ ((1 : ℝ) / 365)) 366,
      ← Real.rpow_mul hb0, ← Real.rpow_mul hb0]
    have key : (1 : ℝ) / 366 * ((366 : ℕ) : ℝ) < (1 : ℝ) / 365 * ((366 : ℕ) : ℝ) := by
      push_cast
      norm_num
    exact ne_of_lt ((Real.rpow_lt_rpow_left_iff hb).mpr key)

/-- C5, witness at rate 3 percent. -/
theorem leap_year_daily_factor_witness :
    (0 : ℝ) < 3 ∧
    (days_in_year 2020 = 366 ∧ days_in_year 2021 = 365 ∧
      (precompute_inflation_factors realPow [(2020, (3 : ℝ))] ⟨2020, 1⟩).map
        List.getLast? =
        .ok (some (⟨2020, 366⟩, realPow (1 + (3 : ℝ) / 100) 366 ^ (366 : ℕ))) ∧
      realPow (1 + (3 : ℝ) / 100) 366 ^ (366 : ℕ) ≠
        fixed365_daily_factor 3 ^ (366 : ℕ)) :=
  ⟨by norm_num, leap_year_daily_factor 3 (by norm_num)⟩

/-- C6 counterexample: the zero-rate round trip fails as universally stated.
With a table covering only 2020 (all rates 0) and start date 2020-01-01,
a series holding one record dated 2021-01-01 — a date on or after the start
date — comes back empty from deflation: the record's date lies outside the
curve's year coverage, so it is dropped, and the deflated series does not
equal the input at that date (`none` against `some 100`). -/
theorem deflate_roundtrip_counterexample :
    Date.le ⟨2020, 1⟩ ⟨2021, 1⟩ ∧
    effLookup [(⟨⟨2021, 1⟩, (100 : ℝ), none⟩ : Record ℝ)] ⟨2021, 1⟩ = some 100 ∧
    (precompute_inflation_factors realPow [(2020, (0 : ℝ))] ⟨2020, 1⟩).map
      (fun curve => effLookup (adjust_for_inflation
        [(⟨⟨2021, 1⟩, (100 : ℝ), none⟩ : Record ℝ)] curve).2 ⟨2021, 1⟩) = .ok none := by
  have hrange : List.range' ((⟨2020, 1⟩ : Date).year)
      (min END_DATE (maxTableYear [(2020, (0 : ℝ))]) + 1 - (⟨2020, 1⟩ : Date).year) =
      [2020] := by
    have hm : maxTableYear [(2020, (0 : ℝ))] = 2020 := rfl
    rw [hm]
    rfl
  refine ⟨by decide, by simp [effLookup, List.find?, effPrice], ?_⟩
  have hall : ∀ y ∈ List.range' ((⟨2020, 1⟩ : Date).year)
      (min END_DATE (maxTableYear [(2020, (0 : ℝ))]) + 1 - (⟨2020, 1⟩ : Date).year),
      lookupRate [(2020, (0 : ℝ))] y = some (0 : ℝ) := by
    rw [hrange]
    intro y hy
    rcases List.mem_cons.mp hy with rfl | h
    · rfl
    · exact absurd h (List.not_mem_nil _)
  obtain ⟨curve, hok, hiff⟩ := precompute_zero_spec [(2020, (0 : ℝ))] ⟨2020, 1⟩ hall
  rw [hok]
  have hkeys : ∀ e ∈ curve, (e : Date × ℝ).1.year = 2020 := by
    intro e he
    obtain ⟨y, hy, dd, hdd, hle, rfl⟩ := (hiff e).mp he
    have hy2020 : y = 2020 := by
      rw [hrange] at hy
      rcases List.mem_cons.mp hy with rfl | h
      · rfl
      · exact absurd h (List.not_mem_nil _)
    rw [hy2020]
  have hnone : lookupDate curve ⟨2021, 1⟩ = none := by
    have hf : curve.find? (fun p => decide (p.1 = (⟨2021, 1⟩ : Date))) = none := by
      rw [List.find?_eq_none]
      intro e he
      simp only [decide_eq_true_eq]
      intro heq
      have hk := hkeys e he
      rw [heq] at hk
      simp at hk
    rw [lookupDate, hf]
    rfl
  have hmem : ((⟨2020, 1⟩, (1 : ℝ)) : Date × ℝ) ∈ curve := by
    rw [hiff]
    refine ⟨2020, ?_, 1, ?_, Or.inr ⟨rfl, le_refl 1⟩, rfl⟩
    · rw [hrange]
      exact List.mem_cons_self _ _
    · rw [List.mem_range'_1]
      have : days_in_year 2020 = 366 := by decide
      omega
  have hcne : curve.isEmpty = false := by
    cases hc : curve
    · rw [hc] at hmem
      exact absurd hmem (List.not_mem_nil _)
    · rfl
  have hstep : (adjustStep curve (⟨⟨2021, 1⟩, (100 : ℝ), none⟩ : Record ℝ)).2 = none := by
    simp only [adjustStep, hnone]
  simp only [Except.map, adjust_for_inflation, hcne, Bool.false_eq_true, if_false,
    List.filterMap_cons, hstep, List.filterMap_nil]
  simp [effLookup]

/-- C6 amended: the zero-rate round trip holds on the curve's coverage —
for a raw series and a zero-rate table covering every iterated year, at
every valid date on or after the start date whose year does not exceed
`min(END_DATE, max table year)`, the deflated series' effective price
equals the input's (each daily factor is `1`, the cumulative factor stays
`1`, and `price / 1 = price` exactly).  Dates past the coverage are dropped
from the result, which is what the counterexample exhibits. -/
theorem deflate_roundtrip_zero_rate_in_coverage (tbl : List (Nat × ℝ)) (sd : Date)
    (series : List (Record ℝ)) (d : Date)
    (hz : ∀ p ∈ tbl, p.2 = (0 : ℝ))
    (hcov : ∀ y, sd.year ≤ y → y ≤ min END_DATE (maxTableYear tbl) →
      lookupRate tbl y ≠ none)
    (hraw : ∀ r ∈ series, r.adjClose = none)
    (hd : Date.le sd d) (hdy : d.year ≤ min END_DATE (maxTableYear tbl))
    (hdoy1 : 1 ≤ d.doy) (hdoy2 : d.doy ≤ days_in_year d.year) :
    (precompute_inflation_factors realPow tbl sd).map
      (fun curve => effLookup (adjust_for_inflation series curve).2 d) =
      .ok (effLookup series d) := by
  have hall : ∀ y ∈ List.range' sd.year (min END_DATE (maxTableYear tbl) + 1 - sd.year),
      lookupRate tbl y = some (0 : ℝ) := by
    intro y hy
    rw [List.mem_range'_1] at hy
    have hyb : y ≤ min END_DATE (maxTableYear tbl) := by omega
    have hlne := hcov y hy.1 hyb
    cases hl : lookupRate tbl y with
    | none => exact absurd hl hlne
    | some rr =>
      have hmem : (y, rr) ∈ tbl := by
        rw [lookupRate] at hl
        obtain ⟨p, hp, hp2⟩ := Option.map_eq_some'.mp hl
        have hp1 : p.1 = y := by simpa using List.find?_some hp
        have hpm := List.mem_of_find?_eq_some hp
        rw [← hp1, ← hp2, Prod.mk.eta]
        exact hpm
      have : rr = 0 := hz (y, rr) hmem
      rw [this]
  obtain ⟨curve, hok, hiff⟩ := precompute_zero_spec tbl sd hall
  rw [hok]
  have hd2 : sd.year < d.year ∨ (sd.year = d.year ∧ sd.doy ≤ d.doy) := hd
  have hsy : sd.year ≤ d.year := by
    rcases hd2 with h | ⟨h, -⟩ <;> omega
  have hmemd : ((d, (1 : ℝ)) : Date × ℝ) ∈ curve := by
    rw [hiff]
    refine ⟨d.year, ?_, d.doy, ?_, ?_, ?_⟩
    · rw [List.mem_range'_1]
      omega
    · rw [List.mem_range'_1]
      omega
    · cases d
      exact hd
    · cases d
      rfl
  have hl1 : lookupDate curve d = some 1 := by
    rw [lookupDate]
    have hfs : (curve.find? fun p => decide (p.1 = d)).isSome := by
      rw [List.find?_isSome]
      exact ⟨(d, 1), hmemd, by simp⟩
    obtain ⟨e0, he0⟩ := Option.isSome_iff_exists.mp hfs
    have he0p : e0.1 = d := by simpa using List.find?_some he0
    have he0v : e0.2 = 1 := by
      obtain ⟨y, hy, dd, hdd, hle, he⟩ := (hiff e0).mp (List.mem_of_find?_eq_some he0)
      rw [he]
    rw [he0]
    simp [he0v]
  simp only [Except.map, Except.ok.injEq]
  exact effLookup_adjust_of_factor_one curve d hl1 series hraw

/-- C6 amended, witness at a concrete input. -/
theorem deflate_roundtrip_zero_rate_in_coverage_witness :
    (∀ p ∈ [((2020 : Nat), (0 : ℝ))], p.2 = (0 : ℝ)) ∧
    (∀ r ∈ [(⟨⟨2020, 5⟩, (100 : ℝ), none⟩ : Record ℝ)], r.adjClose = none) ∧
    Date.le ⟨2020, 1⟩ ⟨2020, 5⟩ ∧
    (precompute_inflation_factors realPow [((2020 : Nat), (0 : ℝ))] ⟨2020, 1⟩).map
      (fun curve => effLookup (adjust_for_inflation
        [(⟨⟨2020, 5⟩, (100 : ℝ), none⟩ : Record ℝ)] curve).2 ⟨2020, 5⟩) =
      .ok (effLookup [(⟨⟨2020, 5⟩, (100 : ℝ), none⟩ : Record ℝ)] ⟨2020, 5⟩) := by
  refine ⟨by simp, by simp, by decide, ?_⟩
  refine deflate_roundtrip_zero_rate_in_coverage [((2020 : Nat), (0 : ℝ))] ⟨2020, 1⟩
    [⟨⟨2020, 5⟩, (100 : ℝ), none⟩] ⟨2020, 5⟩ (by simp) ?_ (by simp) (by decide)
    (by decide) (by decide) (by decide)
  intro y h1 h2
  have hm : maxTableYear [((2020 : Nat), (0 : ℝ))] = 2020 := rfl
  rw [hm] at h2
  have h1b : 2020 ≤ y := h1
  have hy : y = 2020 := by omega
  rw [hy]
  simp [lookupRate, List.find?]
